import Mathlib

/-!
Verification of the sound-space-studio recording model.

The development shallowly embeds the three source components:
the `SoundSpace` session controller (instrument selection, recording
state, the note-event log, JSON export), the `Piano` panel and the
`Drums` panel (keyboard mappings, pressed-key and visually-active
sets, and the timed auto-clear of the visual state).

Modelling conventions:
* JavaScript `Set` objects are embedded as insertion-ordered duplicate-free
  lists (`jsInsert` appends when absent, `jsDelete` removes the element),
  matching `Set.add` / `Set.delete` semantics.
* Wall-clock instants (`Date.now()`) are passed in explicitly; session
  timestamps are integers (`Int`), panel timer expiries are `Nat`.
* `setTimeout` callbacks are embedded as a pending-timer list on the panel
  state together with `fireDue`, which fires every timer whose expiry has
  been reached; every input event first fires the timers that are due,
  exactly as the single-threaded event loop does.
* React functional state updates are applied synchronously, in handler
  order; the `Tone.js` synthesizers are modelled as initialized (the mount
  effect constructs them before any input event can be delivered), and
  triggering a synthesizer / invoking the `onNotePlay` callback are
  recorded as the output list of each handler.
-/

namespace SoundSpaceStudio

/-- JavaScript `String.prototype.toLowerCase` on the ASCII event keys this
program receives: lower each character. -/
def toLowerCase (s : String) : String :=
  ⟨s.data.map Char.toLower⟩

/-- JavaScript `Set.add`: append the element when it is not yet present. -/
def jsInsert (x : String) (l : List String) : List String :=
  if l.contains x then l else l ++ [x]

/-- JavaScript `Set.delete`: remove the element. -/
def jsDelete (x : String) (l : List String) : List String :=
  l.filter (fun y => y != x)

/-! ## Session controller (`SoundSpace` component) -/

/-- The instrument selector, `type Instrument = 'piano' | 'drums'`. -/
inductive Instrument
  | piano
  | drums
deriving DecidableEq

/-- A logged note event, `interface NoteEvent`. -/
structure NoteEvent where
  instrument : Instrument
  note : String
  timestamp : Int
deriving DecidableEq

/-- The `SoundSpace` component's state: `activeInstrument`, `isRecording`,
`recordedNotes` and the `recordingStartTime` ref. -/
structure SoundSpaceState where
  activeInstrument : Instrument
  isRecording : Bool
  recordedNotes : List NoteEvent
  recordingStartTime : Int
deriving DecidableEq

/-- `handleStartRecording`: set `isRecording`, clear the log, stamp
`recordingStartTime.current = Date.now()`. -/
def handleStartRecording (now : Int) (s : SoundSpaceState) : SoundSpaceState :=
  { s with isRecording := true, recordedNotes := [], recordingStartTime := now }

/-- `handleStopRecording`: clear `isRecording` only. -/
def handleStopRecording (s : SoundSpaceState) : SoundSpaceState :=
  { s with isRecording := false }

/-- `handleNotePlay`: while recording, append one event tagged with the
currently selected instrument and the relative timestamp. -/
def handleNotePlay (note : String) (now : Int) (s : SoundSpaceState) : SoundSpaceState :=
  if s.isRecording then
    { s with recordedNotes := s.recordedNotes ++
        [{ instrument := s.activeInstrument
           note := note
           timestamp := now - s.recordingStartTime }] }
  else s

/-- The exported document built by `handleDownloadRecording`. -/
structure Recording where
  title : String
  notes : List NoteEvent
  duration : Int
deriving DecidableEq

/-- `handleDownloadRecording`: early-return on an empty log, otherwise build
the document; `recordedNotes[recordedNotes.length - 1]?.timestamp || 0`
yields `0` both for a missing element and for a falsy (zero) timestamp.
The handler performs no state update, so the session state is returned
unchanged next to the produced document. -/
def handleDownloadRecording (isoNow : String) (s : SoundSpaceState) :
    SoundSpaceState × Option Recording :=
  if s.recordedNotes.length == 0 then (s, none)
  else
    (s, some
      { title := "SoundSpace Recording - " ++ isoNow
        notes := s.recordedNotes
        duration :=
          match s.recordedNotes[s.recordedNotes.length - 1]? with
          | some ev => if ev.timestamp == 0 then 0 else ev.timestamp
          | none => 0 })

/-- A sequence of `handleNotePlay` calls, each a played note paired with the
`Date.now()` instant of the call. -/
def runNotePlays (calls : List (String × Int)) (s : SoundSpaceState) : SoundSpaceState :=
  calls.foldl (fun s c => handleNotePlay c.1 c.2 s) s

/-! ## Piano panel (`Piano` component) -/

namespace Piano

/-- The `keyboardMapping` object, keys in declaration order. -/
def keyboardMappingList : List (String × String) :=
  [("a", "C4"), ("s", "D4"), ("d", "E4"), ("f", "F4"),
   ("g", "G4"), ("h", "A4"), ("j", "B4"), ("k", "C5"),
   ("w", "C#4"), ("e", "D#4"), ("t", "F#4"), ("y", "G#4"), ("u", "A#4")]

/-- Property access `keyboardMapping[key]`. -/
def keyboardMapping (key : String) : Option String :=
  (keyboardMappingList.find? (fun p => p.1 == key)).map Prod.snd

/-- The `Piano` component's state: the `activeKeys` and `pressedKeys` sets and
the pending `setTimeout` auto-clear callbacks, each a note paired with the
instant (trigger time + 150 ms) at which it fires. -/
structure PianoState where
  activeKeys : List String
  pressedKeys : List String
  timers : List (String × Nat)
deriving DecidableEq

/-- The freshly mounted panel: both sets empty, no pending timeout. -/
def initPiano : PianoState := { activeKeys := [], pressedKeys := [], timers := [] }

/-- Fire every pending auto-clear whose expiry has been reached by instant
`t`: each one deletes its note from `activeKeys`. -/
def fireDue (s : PianoState) (t : Nat) : PianoState :=
  { activeKeys :=
      ((s.timers.filter (fun p => p.2 ≤ t)).foldl (fun ak p => jsDelete p.1 ak) s.activeKeys)
    pressedKeys := s.pressedKeys
    timers := s.timers.filter (fun p => t < p.2) }

/-- `playNote` at instant `t`: mark the note visually active, trigger the
synthesizer and invoke `onNotePlay` (the returned output list), and schedule
the 150 ms auto-clear. The synth ref is initialized on mount, and the
audio-context resume does not touch panel state. -/
def playNote (s : PianoState) (note : String) (t : Nat) : PianoState × List String :=
  ({ s with activeKeys := jsInsert note s.activeKeys
            timers := s.timers ++ [(note, t + 150)] },
   [note])

/-- `handleKeyDown` at instant `t`: lower-case the event key; when it is
mapped and not already pressed, mark it pressed and play the mapped note. -/
def handleKeyDown (s : PianoState) (eventKey : String) (t : Nat) : PianoState × List String :=
  match keyboardMapping (toLowerCase eventKey) with
  | some note =>
      if s.pressedKeys.contains (toLowerCase eventKey) then (s, [])
      else playNote { s with pressedKeys := jsInsert (toLowerCase eventKey) s.pressedKeys } note t
  | none => (s, [])

/-- `handleKeyUp`: when the event key is mapped, unmark it pressed and clear
the mapped note's visual state immediately. -/
def handleKeyUp (s : PianoState) (eventKey : String) : PianoState :=
  match keyboardMapping (toLowerCase eventKey) with
  | some note =>
      { s with pressedKeys := jsDelete (toLowerCase eventKey) s.pressedKeys
               activeKeys := jsDelete note s.activeKeys }
  | none => s

/-- `handleKeyPress` (pointer press on a key): play unconditionally. -/
def handleKeyPress (s : PianoState) (note : String) (t : Nat) : PianoState × List String :=
  playNote s note t

/-- The discrete inputs the panel reacts to. -/
inductive PianoEvent
  | keyDown (key : String)
  | keyUp (key : String)
  | click (note : String)
deriving DecidableEq

/-- Process one input event arriving at instant `t`: the event loop first
runs the timeouts that have come due, then the handler. -/
def pianoStep (s : PianoState) (e : PianoEvent) (t : Nat) : PianoState × List String :=
  match e with
  | .keyDown k => handleKeyDown (fireDue s t) k t
  | .keyUp k => (handleKeyUp (fireDue s t) k, [])
  | .click note => handleKeyPress (fireDue s t) note t

/-- Process a list of timestamped input events in order, concatenating the
`onNotePlay` outputs. -/
def pianoRun (s : PianoState) : List (PianoEvent × Nat) → PianoState × List String
  | [] => (s, [])
  | e :: es =>
      let r := pianoStep s e.1 e.2
      let rest := pianoRun r.1 es
      (rest.1, r.2 ++ rest.2)

/-- Observe the panel at instant `t` between input events: the timeouts due
by `t` have fired. -/
def observePiano (es : List (PianoEvent × Nat)) (t : Nat) : PianoState :=
  fireDue (pianoRun initPiano es).1 t

/-- `isKeyActive`: the note is in `activeKeys`, or it is a mapping value and
the first key mapped to it is in `pressedKeys` (`find` with `|| ''`). -/
def isKeyActive (s : PianoState) (note : String) : Bool :=
  s.activeKeys.contains note ||
    ((keyboardMappingList.map Prod.snd).contains note &&
      s.pressedKeys.contains
        (((keyboardMappingList.map Prod.fst).find?
            (fun k => keyboardMapping k == some note)).getD ""))

/-- Modelled from the spec: "a keyboard key currently mapped to it is held". -/
def keyHeldFor (s : PianoState) (note : String) : Bool :=
  keyboardMappingList.any (fun p => p.2 == note && s.pressedKeys.contains p.1)

/-- Modelled from the spec: "its timed window (set on trigger) has not yet
expired" — some pending auto-clear for the note expires after `t`. -/
def windowOpenFor (s : PianoState) (t : Nat) (note : String) : Bool :=
  s.timers.any (fun p => p.1 == note && t < p.2)

end Piano

/-! ## Drums panel (`Drums` component) -/

namespace Drums

/-- One entry of the `drumSounds` array. -/
structure DrumSound where
  name : String
  key : String
  color : String
  note : String
deriving DecidableEq

/-- The `drumSounds` array, in declaration order. -/
def drumSounds : List DrumSound :=
  [{ name := "Kick", key := "s", color := "from-red-500 to-red-600", note := "C2" },
   { name := "Snare", key := "d", color := "from-orange-500 to-orange-600", note := "D2" },
   { name := "Hi-Hat", key := "f", color := "from-yellow-500 to-yellow-600", note := "F#2" },
   { name := "Crash", key := "g", color := "from-green-500 to-green-600", note := "A#2" },
   { name := "Ride", key := "h", color := "from-blue-500 to-blue-600", note := "C3" },
   { name := "Tom", key := "j", color := "from-purple-500 to-purple-600", note := "E3" }]

/-- The keys of `synthsRef.current`, as initialized by the mount effect. -/
def synthNames : List String := ["Kick", "Snare", "Hi-Hat", "Crash", "Ride", "Tom"]

/-- The `Drums` component's state: the `activePads` and `pressedKeys` sets
and the pending `setTimeout` auto-clear callbacks, each a pad name paired
with the instant (trigger time + 200 ms) at which it fires. -/
structure DrumsState where
  activePads : List String
  pressedKeys : List String
  timers : List (String × Nat)
deriving DecidableEq

/-- The freshly mounted panel: both sets empty, no pending timeout. -/
def initDrums : DrumsState := { activePads := [], pressedKeys := [], timers := [] }

/-- What one drum trigger does to the outside world: which synthesizer is
triggered, and the string passed to `onNotePlay`. -/
structure DrumOutput where
  synthTriggered : String
  notePlayed : String
deriving DecidableEq

/-- Fire every pending auto-clear whose expiry has been reached by instant
`t`: each one deletes its pad from `activePads`. -/
def fireDueDrums (s : DrumsState) (t : Nat) : DrumsState :=
  { activePads :=
      ((s.timers.filter (fun p => p.2 ≤ t)).foldl (fun ap p => jsDelete p.1 ap) s.activePads)
    pressedKeys := s.pressedKeys
    timers := s.timers.filter (fun p => t < p.2) }

/-- `playDrum` at instant `t`: when the named synth exists, mark the pad
active, trigger the synth (noise synths take no note; either way the synth
named `drumName` is triggered), invoke `` onNotePlay(`name-note`) `` and
schedule the 200 ms auto-clear. -/
def playDrum (s : DrumsState) (drumName : String) (note : String) (t : Nat) :
    DrumsState × List DrumOutput :=
  if synthNames.contains drumName then
    ({ s with activePads := jsInsert drumName s.activePads
              timers := s.timers ++ [(drumName, t + 200)] },
     [{ synthTriggered := drumName, notePlayed := drumName ++ "-" ++ note }])
  else (s, [])

/-- `handleKeyDown` at instant `t`: lower-case the event key, look the drum
up; when found and not already pressed, mark pressed and play it. -/
def handleKeyDownDrums (s : DrumsState) (eventKey : String) (t : Nat) :
    DrumsState × List DrumOutput :=
  match drumSounds.find? (fun d => d.key == toLowerCase eventKey) with
  | some drum =>
      if s.pressedKeys.contains (toLowerCase eventKey) then (s, [])
      else playDrum { s with pressedKeys := jsInsert (toLowerCase eventKey) s.pressedKeys }
        drum.name drum.note t
  | none => (s, [])

/-- `handleKeyUp`: when the event key maps to a drum, unmark it pressed and
clear the pad's visual state immediately. -/
def handleKeyUpDrums (s : DrumsState) (eventKey : String) : DrumsState :=
  match drumSounds.find? (fun d => d.key == toLowerCase eventKey) with
  | some drum =>
      { s with pressedKeys := jsDelete (toLowerCase eventKey) s.pressedKeys
               activePads := jsDelete drum.name s.activePads }
  | none => s

/-- `handlePadClick` (pointer press on a pad): play unconditionally. -/
def handlePadClick (s : DrumsState) (drumName : String) (note : String) (t : Nat) :
    DrumsState × List DrumOutput :=
  playDrum s drumName note t

/-- The discrete inputs the panel reacts to. -/
inductive DrumEvent
  | keyDown (key : String)
  | keyUp (key : String)
  | click (drumName : String) (note : String)
deriving DecidableEq

/-- Process one input event arriving at instant `t`: the event loop first
runs the timeouts that have come due, then the handler. -/
def drumStep (s : DrumsState) (e : DrumEvent) (t : Nat) : DrumsState × List DrumOutput :=
  match e with
  | .keyDown k => handleKeyDownDrums (fireDueDrums s t) k t
  | .keyUp k => (handleKeyUpDrums (fireDueDrums s t) k, [])
  | .click drumName note => handlePadClick (fireDueDrums s t) drumName note t

/-- Process a list of timestamped input events in order, concatenating the
outputs. -/
def drumRun (s : DrumsState) : List (DrumEvent × Nat) → DrumsState × List DrumOutput
  | [] => (s, [])
  | e :: es =>
      let r := drumStep s e.1 e.2
      let rest := drumRun r.1 es
      (rest.1, r.2 ++ rest.2)

/-- Observe the panel at instant `t` between input events: the timeouts due
by `t` have fired. -/
def observeDrums (es : List (DrumEvent × Nat)) (t : Nat) : DrumsState :=
  fireDueDrums (drumRun initDrums es).1 t

/-- `isPadActive`: the pad is in `activePads`, or its drum entry's key is in
`pressedKeys` (`drum && pressedKeys.has(drum.key)`). -/
def isPadActive (s : DrumsState) (drumName : String) : Bool :=
  s.activePads.contains drumName ||
    (match drumSounds.find? (fun d => d.name == drumName) with
     | some drum => s.pressedKeys.contains drum.key
     | none => false)

/-- Modelled from the spec: "a key mapped to that note is currently held". -/
def padKeyHeldFor (s : DrumsState) (drumName : String) : Bool :=
  drumSounds.any (fun d => d.name == drumName && s.pressedKeys.contains d.key)

/-- Modelled from the spec: "its timed window (set on trigger) has not yet
expired" — some pending auto-clear for the pad expires after `t`. -/
def padWindowOpenFor (s : DrumsState) (t : Nat) (drumName : String) : Bool :=
  s.timers.any (fun p => p.1 == drumName && t < p.2)

end Drums

/-! ## Session-controller theorems -/

/-- Claim C1: every `onNotePlay(note)` call made while `isRecording` is true
appends exactly one `NoteEvent` carrying the currently selected instrument,
the given note and the relative timestamp `now - startTime` at the end of
the log, leaving all previously logged events unchanged. -/
theorem notePlay_while_recording_appends_one (note : String) (now : Int)
    (s : SoundSpaceState) (h : s.isRecording = true) :
    handleNotePlay note now s =
      { s with recordedNotes := s.recordedNotes ++
          [{ instrument := s.activeInstrument
             note := note
             timestamp := now - s.recordingStartTime }] } := by
  simp [handleNotePlay, h]

/-- Concrete instance of `notePlay_while_recording_appends_one`. -/
theorem notePlay_while_recording_appends_one_witness :
    handleNotePlay "D4" 130
        { activeInstrument := Instrument.piano, isRecording := true,
          recordedNotes := [{ instrument := Instrument.piano, note := "C4", timestamp := 5 }],
          recordingStartTime := 100 } =
      { activeInstrument := Instrument.piano, isRecording := true,
        recordedNotes := [{ instrument := Instrument.piano, note := "C4", timestamp := 5 },
          { instrument := Instrument.piano, note := "D4", timestamp := 30 }],
        recordingStartTime := 100 } :=
  notePlay_while_recording_appends_one "D4" 130 _ rfl

/-- Claim C4: from every prior state, `startRecording()` sets `isRecording`,
resets the log to empty and sets `startTime` to the current instant. -/
theorem startRecording_always_resets (now : Int) (s : SoundSpaceState) :
    handleStartRecording now s =
      { activeInstrument := s.activeInstrument, isRecording := true,
        recordedNotes := [], recordingStartTime := now } := rfl

/-- Claim C5: an `onNotePlay(note)` call made while `isRecording` is false
leaves the whole state, in particular the log, unchanged. -/
theorem notePlay_while_not_recording_noop (note : String) (now : Int)
    (s : SoundSpaceState) (h : s.isRecording = false) :
    handleNotePlay note now s = s := by
  simp [handleNotePlay, h]

/-- Concrete instance of `notePlay_while_not_recording_noop`. -/
theorem notePlay_while_not_recording_noop_witness :
    handleNotePlay "C4" 42
        { activeInstrument := Instrument.drums, isRecording := false,
          recordedNotes := [{ instrument := Instrument.piano, note := "A4", timestamp := 7 }],
          recordingStartTime := 3 } =
      { activeInstrument := Instrument.drums, isRecording := false,
        recordedNotes := [{ instrument := Instrument.piano, note := "A4", timestamp := 7 }],
        recordingStartTime := 3 } :=
  notePlay_while_not_recording_noop "C4" 42 _ rfl

/-- Claim C8: `stopRecording()` clears `isRecording` and leaves the log (and
the rest of the state) exactly as it was. -/
theorem stopRecording_retains_log (s : SoundSpaceState) :
    (handleStopRecording s).isRecording = false ∧
    (handleStopRecording s).recordedNotes = s.recordedNotes ∧
    (handleStopRecording s).activeInstrument = s.activeInstrument ∧
    (handleStopRecording s).recordingStartTime = s.recordingStartTime :=
  ⟨rfl, rfl, rfl, rfl⟩

/-- Claim C10: exporting leaves the entire session state unchanged, so a
second export of the same state produces the same document. -/
theorem download_preserves_session (isoNow : String) (s : SoundSpaceState) :
    (handleDownloadRecording isoNow s).1 = s ∧
    (handleDownloadRecording isoNow ((handleDownloadRecording isoNow s).1)).2 =
      (handleDownloadRecording isoNow s).2 := by
  have h1 : (handleDownloadRecording isoNow s).1 = s := by
    unfold handleDownloadRecording
    split <;> rfl
  exact ⟨h1, by rw [h1]⟩

/-- Claim C3: exporting an empty log produces nothing; exporting a non-empty
log produces a document whose notes are the log verbatim and whose duration
is the last event's timestamp. -/
theorem download_notes_verbatim_duration_last (isoNow : String) (s : SoundSpaceState) :
    (s.recordedNotes.length = 0 → (handleDownloadRecording isoNow s).2 = none) ∧
    (∀ ev, s.recordedNotes.getLast? = some ev →
      ∃ doc, (handleDownloadRecording isoNow s).2 = some doc ∧
        doc.notes = s.recordedNotes ∧
        doc.notes.length = s.recordedNotes.length ∧
        doc.duration = ev.timestamp) := by
  constructor
  · intro h
    simp [handleDownloadRecording, h]
  · intro ev hev
    have hne : s.recordedNotes ≠ [] := by
      intro hnil
      rw [hnil] at hev
      simp at hev
    have hlen : (s.recordedNotes.length == 0) = false := by
      simp [List.length_eq_zero, hne]
    have hidx : s.recordedNotes[s.recordedNotes.length - 1]? = some ev := by
      rw [← List.getLast?_eq_getElem?]
      exact hev
    have hdl : (handleDownloadRecording isoNow s).2 = some
        { title := "SoundSpace Recording - " ++ isoNow
          notes := s.recordedNotes
          duration :=
            match s.recordedNotes[s.recordedNotes.length - 1]? with
            | some e => if e.timestamp == 0 then 0 else e.timestamp
            | none => 0 } := by
      simp [handleDownloadRecording, hlen]
    refine ⟨_, hdl, rfl, rfl, ?_⟩
    simp only [hidx]
    by_cases hts : ev.timestamp = 0
    · simp [hts]
    · simp [hts]

/-- Concrete instance of `download_notes_verbatim_duration_last`. -/
theorem download_notes_verbatim_duration_last_witness :
    ∃ doc,
      (handleDownloadRecording "2024-01-01T00:00:00.000Z"
          { activeInstrument := Instrument.piano, isRecording := false,
            recordedNotes := [{ instrument := Instrument.piano, note := "C4", timestamp := 5 },
              { instrument := Instrument.drums, note := "Kick-C2", timestamp := 11 }],
            recordingStartTime := 0 }).2 = some doc ∧
      doc.notes = [{ instrument := Instrument.piano, note := "C4", timestamp := 5 },
        { instrument := Instrument.drums, note := "Kick-C2", timestamp := 11 }] ∧
      doc.notes.length = 2 ∧
      doc.duration = (11 : Int) :=
  (download_notes_verbatim_duration_last "2024-01-01T00:00:00.000Z" _).2
    { instrument := Instrument.drums, note := "Kick-C2", timestamp := 11 } rfl

/-- While recording, a sequence of `handleNotePlay` calls appends, in call
order, one event per call, tagged with the (unchanged) selected instrument
and relative timestamps. -/
theorem runNotePlays_while_recording (calls : List (String × Int)) (s : SoundSpaceState)
    (h : s.isRecording = true) :
    runNotePlays calls s =
      { s with recordedNotes := s.recordedNotes ++
          calls.map (fun c =>
            { instrument := s.activeInstrument
              note := c.1
              timestamp := c.2 - s.recordingStartTime }) } := by
  induction calls generalizing s with
  | nil => simp [runNotePlays]
  | cons c cs ih =>
      have hstep : runNotePlays (c :: cs) s = runNotePlays cs (handleNotePlay c.1 c.2 s) := rfl
      have hrec : (handleNotePlay c.1 c.2 s).isRecording = true := by
        rw [notePlay_while_recording_appends_one c.1 c.2 s h]
        exact h
      rw [hstep, ih (handleNotePlay c.1 c.2 s) hrec,
        notePlay_while_recording_appends_one c.1 c.2 s h]
      simp

/-- Claim C7: across any sequence of `onNotePlay` calls between a
`startRecording()` and the next `stopRecording()`, made at non-decreasing
wall-clock instants, the logged timestamps are non-decreasing in log
order. -/
theorem recording_timestamps_monotone (s₀ : SoundSpaceState) (t₀ : Int)
    (calls : List (String × Int))
    (hsorted : (calls.map Prod.snd).Sorted (· ≤ ·)) :
    ((handleStopRecording (runNotePlays calls (handleStartRecording t₀ s₀))).recordedNotes.map
        NoteEvent.timestamp).Sorted (· ≤ ·) := by
  have hnotes :
      (handleStopRecording (runNotePlays calls (handleStartRecording t₀ s₀))).recordedNotes =
        calls.map (fun c =>
          ({ instrument := s₀.activeInstrument, note := c.1,
             timestamp := c.2 - t₀ } : NoteEvent)) := by
    rw [runNotePlays_while_recording calls _ rfl]
    simp [handleStopRecording, handleStartRecording]
  rw [hnotes, List.map_map]
  simp only [List.Sorted] at hsorted ⊢
  rw [List.pairwise_map] at hsorted ⊢
  exact hsorted.imp (fun hab => by simpa using Int.sub_le_sub_right hab t₀)

/-! ## Panel helper lemmas -/

theorem jsInsert_contains_self (x : String) (l : List String) :
    (jsInsert x l).contains x = true := by
  unfold jsInsert
  split
  · assumption
  · simp

theorem fireDue_pressedKeys (s : Piano.PianoState) (t : Nat) :
    (Piano.fireDue s t).pressedKeys = s.pressedKeys := rfl

theorem fireDueDrums_pressedKeys (s : Drums.DrumsState) (t : Nat) :
    (Drums.fireDueDrums s t).pressedKeys = s.pressedKeys := rfl

/-- A key-down for a mapped piano key that is already pressed does nothing
beyond firing the timeouts that are due. -/
theorem pianoStep_keyDown_pressed (s : Piano.PianoState) (k : String) (t : Nat)
    (note : String) (hm : Piano.keyboardMapping (toLowerCase k) = some note)
    (h : s.pressedKeys.contains (toLowerCase k) = true) :
    Piano.pianoStep s (Piano.PianoEvent.keyDown k) t = (Piano.fireDue s t, []) := by
  show Piano.handleKeyDown (Piano.fireDue s t) k t = (Piano.fireDue s t, [])
  unfold Piano.handleKeyDown
  rw [hm]
  rw [fireDue_pressedKeys, h]
  rfl

/-- Repeated key-downs of a pressed piano key produce no output and no state
change beyond timer firing. -/
theorem pianoRun_repeats (k : String) (ts : List Nat) (s : Piano.PianoState)
    (note : String) (hm : Piano.keyboardMapping (toLowerCase k) = some note)
    (h : s.pressedKeys.contains (toLowerCase k) = true) :
    Piano.pianoRun s (ts.map (fun u => (Piano.PianoEvent.keyDown k, u))) =
      (ts.foldl Piano.fireDue s, []) := by
  induction ts generalizing s with
  | nil => rfl
  | cons u us ih =>
      show (let r := Piano.pianoStep s (Piano.PianoEvent.keyDown k) u
            let rest := Piano.pianoRun r.1 (us.map (fun u => (Piano.PianoEvent.keyDown k, u)))
            (rest.1, r.2 ++ rest.2)) = ((u :: us).foldl Piano.fireDue s, [])
      rw [pianoStep_keyDown_pressed s k u note hm h]
      dsimp only
      rw [ih (Piano.fireDue s u) (by rw [fireDue_pressedKeys]; exact h)]
      rfl

/-- A key-down for a mapped drum key that is already pressed does nothing
beyond firing the timeouts that are due. -/
theorem drumStep_keyDown_pressed (s : Drums.DrumsState) (k : String) (t : Nat)
    (drum : Drums.DrumSound)
    (hm : Drums.drumSounds.find? (fun d => d.key == toLowerCase k) = some drum)
    (h : s.pressedKeys.contains (toLowerCase k) = true) :
    Drums.drumStep s (Drums.DrumEvent.keyDown k) t = (Drums.fireDueDrums s t, []) := by
  show Drums.handleKeyDownDrums (Drums.fireDueDrums s t) k t = (Drums.fireDueDrums s t, [])
  unfold Drums.handleKeyDownDrums
  rw [hm]
  rw [fireDueDrums_pressedKeys, h]
  rfl

/-- Repeated key-downs of a pressed drum key produce no output and no state
change beyond timer firing. -/
theorem drumRun_repeats (k : String) (ts : List Nat) (s : Drums.DrumsState)
    (drum : Drums.DrumSound)
    (hm : Drums.drumSounds.find? (fun d => d.key == toLowerCase k) = some drum)
    (h : s.pressedKeys.contains (toLowerCase k) = true) :
    Drums.drumRun s (ts.map (fun u => (Drums.DrumEvent.keyDown k, u))) =
      (ts.foldl Drums.fireDueDrums s, []) := by
  induction ts generalizing s with
  | nil => rfl
  | cons u us ih =>
      show (let r := Drums.drumStep s (Drums.DrumEvent.keyDown k) u
            let rest := Drums.drumRun r.1 (us.map (fun u => (Drums.DrumEvent.keyDown k, u)))
            (rest.1, r.2 ++ rest.2)) = ((u :: us).foldl Drums.fireDueDrums s, [])
      rw [drumStep_keyDown_pressed s k u drum hm h]
      dsimp only
      rw [ih (Drums.fireDueDrums s u) (by rw [fireDueDrums_pressedKeys]; exact h)]
      rfl

/-- Every drum entry has a synthesizer of the same name. -/
theorem drumSounds_have_synths :
    ∀ d ∈ Drums.drumSounds, Drums.synthNames.contains d.name = true := by
  decide

/-- Claim C2: within a sequence of key-down events for the same mapped key
with no interleaved key-up of that key, only the first key-down triggers the
sound, marks the note (pad) visually active and invokes `onNotePlay`; every
subsequent key-down produces no output and no state change beyond the firing
of timeouts that come due. -/
theorem keydown_repeat_suppression :
    (∀ (k note : String) (s : Piano.PianoState) (t : Nat) (ts : List Nat),
      Piano.keyboardMapping (toLowerCase k) = some note →
      s.pressedKeys.contains (toLowerCase k) = false →
      (Piano.pianoRun s ((Piano.PianoEvent.keyDown k, t) ::
          ts.map (fun u => (Piano.PianoEvent.keyDown k, u)))).2 = [note] ∧
      (Piano.pianoStep s (Piano.PianoEvent.keyDown k) t).1.activeKeys.contains note = true ∧
      (Piano.pianoRun s ((Piano.PianoEvent.keyDown k, t) ::
          ts.map (fun u => (Piano.PianoEvent.keyDown k, u)))).1 =
        ts.foldl Piano.fireDue (Piano.pianoStep s (Piano.PianoEvent.keyDown k) t).1) ∧
    (∀ (k : String) (drum : Drums.DrumSound) (s : Drums.DrumsState) (t : Nat) (ts : List Nat),
      Drums.drumSounds.find? (fun d => d.key == toLowerCase k) = some drum →
      s.pressedKeys.contains (toLowerCase k) = false →
      (Drums.drumRun s ((Drums.DrumEvent.keyDown k, t) ::
          ts.map (fun u => (Drums.DrumEvent.keyDown k, u)))).2 =
        [{ synthTriggered := drum.name, notePlayed := drum.name ++ "-" ++ drum.note }] ∧
      (Drums.drumStep s (Drums.DrumEvent.keyDown k) t).1.activePads.contains drum.name = true ∧
      (Drums.drumRun s ((Drums.DrumEvent.keyDown k, t) ::
          ts.map (fun u => (Drums.DrumEvent.keyDown k, u)))).1 =
        ts.foldl Drums.fireDueDrums (Drums.drumStep s (Drums.DrumEvent.keyDown k) t).1) := by
  constructor
  · intro k note s t ts hm hp
    have hstep : Piano.pianoStep s (Piano.PianoEvent.keyDown k) t =
        ({ activeKeys := jsInsert note (Piano.fireDue s t).activeKeys
           pressedKeys := jsInsert (toLowerCase k) s.pressedKeys
           timers := (Piano.fireDue s t).timers ++ [(note, t + 150)] }, [note]) := by
      show Piano.handleKeyDown (Piano.fireDue s t) k t = _
      unfold Piano.handleKeyDown
      rw [hm, fireDue_pressedKeys, hp]
      rfl
    have hpressed : (Piano.pianoStep s (Piano.PianoEvent.keyDown k) t).1.pressedKeys.contains
        (toLowerCase k) = true := by
      rw [hstep]
      exact jsInsert_contains_self _ _
    have hrun : Piano.pianoRun s ((Piano.PianoEvent.keyDown k, t) ::
          ts.map (fun u => (Piano.PianoEvent.keyDown k, u))) =
        (ts.foldl Piano.fireDue (Piano.pianoStep s (Piano.PianoEvent.keyDown k) t).1,
          [note]) := by
      show (let r := Piano.pianoStep s (Piano.PianoEvent.keyDown k) t
            let rest := Piano.pianoRun r.1 (ts.map (fun u => (Piano.PianoEvent.keyDown k, u)))
            (rest.1, r.2 ++ rest.2)) = _
      dsimp only
      rw [pianoRun_repeats k ts _ note hm hpressed]
      rw [hstep]
      rfl
    exact ⟨by rw [hrun], by rw [hstep]; exact jsInsert_contains_self _ _, by rw [hrun]⟩
  · intro k drum s t ts hm hp
    have hsynth : Drums.synthNames.contains drum.name = true :=
      drumSounds_have_synths drum (List.mem_of_find?_eq_some hm)
    have hstep : Drums.drumStep s (Drums.DrumEvent.keyDown k) t =
        ({ activePads := jsInsert drum.name (Drums.fireDueDrums s t).activePads
           pressedKeys := jsInsert (toLowerCase k) s.pressedKeys
           timers := (Drums.fireDueDrums s t).timers ++ [(drum.name, t + 200)] },
          [{ synthTriggered := drum.name, notePlayed := drum.name ++ "-" ++ drum.note }]) := by
      show Drums.handleKeyDownDrums (Drums.fireDueDrums s t) k t = _
      unfold Drums.handleKeyDownDrums
      rw [hm, fireDueDrums_pressedKeys, hp]
      simp [Drums.playDrum, hsynth]
      simpa using hsynth
    have hpressed : (Drums.drumStep s (Drums.DrumEvent.keyDown k) t).1.pressedKeys.contains
        (toLowerCase k) = true := by
      rw [hstep]
      exact jsInsert_contains_self _ _
    have hrun : Drums.drumRun s ((Drums.DrumEvent.keyDown k, t) ::
          ts.map (fun u => (Drums.DrumEvent.keyDown k, u))) =
        (ts.foldl Drums.fireDueDrums (Drums.drumStep s (Drums.DrumEvent.keyDown k) t).1,
          [{ synthTriggered := drum.name, notePlayed := drum.name ++ "-" ++ drum.note }]) := by
      show (let r := Drums.drumStep s (Drums.DrumEvent.keyDown k) t
            let rest := Drums.drumRun r.1 (ts.map (fun u => (Drums.DrumEvent.keyDown k, u)))
            (rest.1, r.2 ++ rest.2)) = _
      dsimp only
      rw [drumRun_repeats k ts _ drum hm hpressed]
      rw [hstep]
      rfl
    exact ⟨by rw [hrun], by rw [hstep]; exact jsInsert_contains_self _ _, by rw [hrun]⟩

/-- Concrete instance of `keydown_repeat_suppression`: three key-downs of
`a` with no key-up produce a single played `C4`, and three key-downs of `s`
on the drums produce a single Kick trigger. -/
theorem keydown_repeat_suppression_witness :
    (Piano.pianoRun Piano.initPiano [(Piano.PianoEvent.keyDown "a", 0),
        (Piano.PianoEvent.keyDown "a", 1), (Piano.PianoEvent.keyDown "a", 2)]).2 = ["C4"] ∧
    (Drums.drumRun Drums.initDrums [(Drums.DrumEvent.keyDown "s", 0),
        (Drums.DrumEvent.keyDown "s", 1), (Drums.DrumEvent.keyDown "s", 2)]).2 =
      [{ synthTriggered := "Kick", notePlayed := "Kick-C2" }] :=
  ⟨(keydown_repeat_suppression.1 "a" "C4" Piano.initPiano 0 [1, 2] (by decide) (by decide)).1,
    (keydown_repeat_suppression.2 "s" ⟨"Kick", "s", "from-red-500 to-red-600", "C2"⟩
      Drums.initDrums 0 [1, 2] (by decide) (by decide)).1⟩

/-- Claim C9: while the drums panel is mounted and the key `s` is not
already recorded as pressed, a key-down of `s` triggers the Kick
synthesizer and invokes `onNotePlay` with exactly "Kick-C2". -/
theorem kick_keydown_plays_kick (sd : Drums.DrumsState) (t : Nat)
    (hp : sd.pressedKeys.contains "s" = false) :
    (Drums.drumStep sd (Drums.DrumEvent.keyDown "s") t).2 =
      [{ synthTriggered := "Kick", notePlayed := "Kick-C2" }] := by
  show (Drums.handleKeyDownDrums (Drums.fireDueDrums sd t) "s" t).2 = _
  unfold Drums.handleKeyDownDrums
  have h1 : toLowerCase "s" = "s" := rfl
  have hm : Drums.drumSounds.find? (fun d => d.key == toLowerCase "s") =
      some ⟨"Kick", "s", "from-red-500 to-red-600", "C2"⟩ := by decide
  rw [hm, h1, fireDueDrums_pressedKeys, hp]
  rfl

/-- Concrete instance of `kick_keydown_plays_kick` on the freshly mounted
drums panel. -/
theorem kick_keydown_plays_kick_witness :
    (Drums.drumStep Drums.initDrums (Drums.DrumEvent.keyDown "s") 0).2 =
      [{ synthTriggered := "Kick", notePlayed := "Kick-C2" }] :=
  kick_keydown_plays_kick Drums.initDrums 0 rfl

/-! ## Visual-active state: invariant machinery -/

theorem mem_jsInsert (x y : String) (l : List String) :
    x ∈ jsInsert y l ↔ x = y ∨ x ∈ l := by
  unfold jsInsert
  split
  · constructor
    · exact Or.inr
    · rintro (rfl | hx)
      · simpa using (by assumption : l.contains x = true)
      · assumption
  · simp [or_comm]

theorem mem_jsDelete (x y : String) (l : List String) :
    x ∈ jsDelete y l ↔ x ∈ l ∧ x ≠ y := by
  simp [jsDelete]

theorem mem_foldl_jsDelete (due : List (String × Nat)) (ak : List String) (x : String) :
    x ∈ due.foldl (fun a p => jsDelete p.1 a) ak ↔ x ∈ ak ∧ ∀ p ∈ due, x ≠ p.1 := by
  induction due generalizing ak with
  | nil => simp
  | cons p ps ih =>
      rw [List.foldl_cons, ih, mem_jsDelete]
      constructor
      · rintro ⟨⟨hak, hne⟩, hps⟩
        refine ⟨hak, ?_⟩
        intro q hq
        rcases List.mem_cons.1 hq with rfl | hq2
        · exact hne
        · exact hps q hq2
      · rintro ⟨hak, hall⟩
        exact ⟨⟨hak, hall p (List.mem_cons_self p ps)⟩,
          fun q hq => hall q (List.mem_cons_of_mem p hq)⟩

/-- Every visually active note has a pending auto-clear timeout. -/
def ActiveHasTimer (s : Piano.PianoState) : Prop :=
  ∀ x ∈ s.activeKeys, ∃ e, (x, e) ∈ s.timers

theorem activeHasTimer_initPiano : ActiveHasTimer Piano.initPiano := by
  intro x hx
  simp [Piano.initPiano] at hx

theorem fireDue_active_window (s : Piano.PianoState) (t : Nat) (x : String)
    (h : ActiveHasTimer s) (hx : x ∈ (Piano.fireDue s t).activeKeys) :
    ∃ e, (x, e) ∈ (Piano.fireDue s t).timers ∧ t < e := by
  rw [show (Piano.fireDue s t).activeKeys =
      (s.timers.filter (fun p => p.2 ≤ t)).foldl (fun a p => jsDelete p.1 a) s.activeKeys
    from rfl, mem_foldl_jsDelete] at hx
  obtain ⟨e, he⟩ := h x hx.1
  have hnd : ¬ e ≤ t := by
    intro hle
    exact hx.2 (x, e) (List.mem_filter.2 ⟨he, by simpa using hle⟩) rfl
  refine ⟨e, ?_, Nat.lt_of_not_le hnd⟩
  exact List.mem_filter.2 ⟨he, by simpa using Nat.lt_of_not_le hnd⟩

theorem activeHasTimer_fireDue (s : Piano.PianoState) (t : Nat)
    (h : ActiveHasTimer s) : ActiveHasTimer (Piano.fireDue s t) := by
  intro x hx
  obtain ⟨e, he, _⟩ := fireDue_active_window s t x h hx
  exact ⟨e, he⟩

theorem activeHasTimer_playNote (s : Piano.PianoState) (note : String) (t : Nat)
    (h : ActiveHasTimer s) : ActiveHasTimer (Piano.playNote s note t).1 := by
  intro x hx
  rw [show (Piano.playNote s note t).1.activeKeys = jsInsert note s.activeKeys from rfl,
    mem_jsInsert] at hx
  rcases hx with rfl | hx
  · exact ⟨t + 150, by simp [Piano.playNote]⟩
  · obtain ⟨e, he⟩ := h x hx
    exact ⟨e, by simp [Piano.playNote, he]⟩

theorem activeHasTimer_step (s : Piano.PianoState) (e : Piano.PianoEvent) (t : Nat)
    (h : ActiveHasTimer s) : ActiveHasTimer (Piano.pianoStep s e t).1 := by
  have hfd : ActiveHasTimer (Piano.fireDue s t) := activeHasTimer_fireDue s t h
  cases e with
  | keyDown k =>
      show ActiveHasTimer (Piano.handleKeyDown (Piano.fireDue s t) k t).1
      unfold Piano.handleKeyDown
      cases hm : Piano.keyboardMapping (toLowerCase k) with
      | none => exact hfd
      | some note =>
          dsimp only
          split
          · exact hfd
          · exact activeHasTimer_playNote _ note t hfd
  | keyUp k =>
      show ActiveHasTimer (Piano.handleKeyUp (Piano.fireDue s t) k)
      unfold Piano.handleKeyUp
      cases hm : Piano.keyboardMapping (toLowerCase k) with
      | none => exact hfd
      | some note =>
          intro x hx
          rw [show ({ Piano.fireDue s t with
              pressedKeys := jsDelete (toLowerCase k) (Piano.fireDue s t).pressedKeys,
              activeKeys := jsDelete note (Piano.fireDue s t).activeKeys
              : Piano.PianoState }).activeKeys =
            jsDelete note (Piano.fireDue s t).activeKeys from rfl, mem_jsDelete] at hx
          exact hfd x hx.1
  | click note =>
      exact activeHasTimer_playNote _ note t hfd

theorem activeHasTimer_run (es : List (Piano.PianoEvent × Nat)) (s : Piano.PianoState)
    (h : ActiveHasTimer s) : ActiveHasTimer (Piano.pianoRun s es).1 := by
  induction es generalizing s with
  | nil => exact h
  | cons e es ih => exact ih _ (activeHasTimer_step s e.1 e.2 h)

/-- Every visually active pad has a pending auto-clear timeout. -/
def ActivePadHasTimer (s : Drums.DrumsState) : Prop :=
  ∀ x ∈ s.activePads, ∃ e, (x, e) ∈ s.timers

theorem activePadHasTimer_initDrums : ActivePadHasTimer Drums.initDrums := by
  intro x hx
  simp [Drums.initDrums] at hx

theorem fireDueDrums_active_window (s : Drums.DrumsState) (t : Nat) (x : String)
    (h : ActivePadHasTimer s) (hx : x ∈ (Drums.fireDueDrums s t).activePads) :
    ∃ e, (x, e) ∈ (Drums.fireDueDrums s t).timers ∧ t < e := by
  rw [show (Drums.fireDueDrums s t).activePads =
      (s.timers.filter (fun p => p.2 ≤ t)).foldl (fun a p => jsDelete p.1 a) s.activePads
    from rfl, mem_foldl_jsDelete] at hx
  obtain ⟨e, he⟩ := h x hx.1
  have hnd : ¬ e ≤ t := by
    intro hle
    exact hx.2 (x, e) (List.mem_filter.2 ⟨he, by simpa using hle⟩) rfl
  refine ⟨e, ?_, Nat.lt_of_not_le hnd⟩
  exact List.mem_filter.2 ⟨he, by simpa using Nat.lt_of_not_le hnd⟩

theorem activePadHasTimer_fireDueDrums (s : Drums.DrumsState) (t : Nat)
    (h : ActivePadHasTimer s) : ActivePadHasTimer (Drums.fireDueDrums s t) := by
  intro x hx
  obtain ⟨e, he, _⟩ := fireDueDrums_active_window s t x h hx
  exact ⟨e, he⟩

theorem activePadHasTimer_playDrum (s : Drums.DrumsState) (drumName note : String) (t : Nat)
    (h : ActivePadHasTimer s) : ActivePadHasTimer (Drums.playDrum s drumName note t).1 := by
  unfold Drums.playDrum
  split
  · intro x hx
    dsimp only at hx ⊢
    rw [mem_jsInsert] at hx
    rcases hx with rfl | hx
    · exact ⟨t + 200, by simp⟩
    · obtain ⟨e, he⟩ := h x hx
      exact ⟨e, by simp [he]⟩
  · exact h

theorem activePadHasTimer_step (s : Drums.DrumsState) (e : Drums.DrumEvent) (t : Nat)
    (h : ActivePadHasTimer s) : ActivePadHasTimer (Drums.drumStep s e t).1 := by
  have hfd : ActivePadHasTimer (Drums.fireDueDrums s t) := activePadHasTimer_fireDueDrums s t h
  cases e with
  | keyDown k =>
      show ActivePadHasTimer (Drums.handleKeyDownDrums (Drums.fireDueDrums s t) k t).1
      unfold Drums.handleKeyDownDrums
      cases hm : Drums.drumSounds.find? (fun d => d.key == toLowerCase k) with
      | none => exact hfd
      | some drum =>
          dsimp only
          split
          · exact hfd
          · exact activePadHasTimer_playDrum _ drum.name drum.note t hfd
  | keyUp k =>
      show ActivePadHasTimer (Drums.handleKeyUpDrums (Drums.fireDueDrums s t) k)
      unfold Drums.handleKeyUpDrums
      cases hm : Drums.drumSounds.find? (fun d => d.key == toLowerCase k) with
      | none => exact hfd
      | some drum =>
          intro x hx
          rw [show ({ Drums.fireDueDrums s t with
              pressedKeys := jsDelete (toLowerCase k) (Drums.fireDueDrums s t).pressedKeys,
              activePads := jsDelete drum.name (Drums.fireDueDrums s t).activePads
              : Drums.DrumsState }).activePads =
            jsDelete drum.name (Drums.fireDueDrums s t).activePads from rfl,
            mem_jsDelete] at hx
          exact hfd x hx.1
  | click drumName note =>
      exact activePadHasTimer_playDrum _ drumName note t hfd

theorem activePadHasTimer_run (es : List (Drums.DrumEvent × Nat)) (s : Drums.DrumsState)
    (h : ActivePadHasTimer s) : ActivePadHasTimer (Drums.drumRun s es).1 := by
  induction es generalizing s with
  | nil => exact h
  | cons e es ih => exact ih _ (activePadHasTimer_step s e.1 e.2 h)

/-- The first mapped key found for each mapping value is that entry's own
key (the mapping values are pairwise distinct). -/
theorem mapping_find_first :
    ∀ p ∈ Piano.keyboardMappingList,
      ((Piano.keyboardMappingList.map Prod.fst).find?
        (fun k => Piano.keyboardMapping k == some p.2)) = some p.1 := by
  decide

/-- Drum names are pairwise distinct, so looking a drum up by its own name
finds that entry. -/
theorem drum_find_by_name :
    ∀ d ∈ Drums.drumSounds,
      Drums.drumSounds.find? (fun e => e.name == d.name) = some d := by
  decide

/-- Claim C6 as stated fails on the code: after a pointer click on C4 at
0 ms, a key-down of `a` (mapped to C4) at 10 ms and a key-up of `a` at
20 ms, observed at 30 ms, the C4 timed windows set on trigger (expiring at
150 ms and 160 ms) are still open and no mapped key is held, yet C4 is NOT
shown active — the key-up cleared the visual state despite the open
window. -/
theorem visual_active_iff_counterexample :
    ¬ (Piano.isKeyActive (Piano.observePiano
        [(Piano.PianoEvent.click "C4", 0), (Piano.PianoEvent.keyDown "a", 10),
          (Piano.PianoEvent.keyUp "a", 20)] 30) "C4" = true ↔
      (Piano.keyHeldFor (Piano.observePiano
          [(Piano.PianoEvent.click "C4", 0), (Piano.PianoEvent.keyDown "a", 10),
            (Piano.PianoEvent.keyUp "a", 20)] 30) "C4" = true ∨
        Piano.windowOpenFor (Piano.observePiano
          [(Piano.PianoEvent.click "C4", 0), (Piano.PianoEvent.keyDown "a", 10),
            (Piano.PianoEvent.keyUp "a", 20)] 30) 30 "C4" = true)) := by
  decide

/-- Claim C6, amended: at every point between input events, a note (pad)
with a mapped key currently held is shown active, and a note (pad) shown
active has a mapped key held or a timed active window that has not yet
expired. An open window alone does not force the visual state: a key-up of
a mapped key, or the timeout of an earlier trigger, clears it immediately
(see `visual_active_iff_counterexample`). -/
theorem visual_active_characterization :
    (∀ (es : List (Piano.PianoEvent × Nat)) (t : Nat) (note : String),
      (Piano.keyHeldFor (Piano.observePiano es t) note = true →
        Piano.isKeyActive (Piano.observePiano es t) note = true) ∧
      (Piano.isKeyActive (Piano.observePiano es t) note = true →
        Piano.keyHeldFor (Piano.observePiano es t) note = true ∨
        Piano.windowOpenFor (Piano.observePiano es t) t note = true)) ∧
    (∀ (es : List (Drums.DrumEvent × Nat)) (t : Nat) (pad : String),
      (Drums.padKeyHeldFor (Drums.observeDrums es t) pad = true →
        Drums.isPadActive (Drums.observeDrums es t) pad = true) ∧
      (Drums.isPadActive (Drums.observeDrums es t) pad = true →
        Drums.padKeyHeldFor (Drums.observeDrums es t) pad = true ∨
        Drums.padWindowOpenFor (Drums.observeDrums es t) t pad = true)) := by
  constructor
  · intro es t note
    constructor
    · intro hheld
      rw [Piano.keyHeldFor, List.any_eq_true] at hheld
      obtain ⟨p, hp, hcond⟩ := hheld
      rw [Bool.and_eq_true, beq_iff_eq] at hcond
      obtain ⟨hsnd, hpressed⟩ := hcond
      rw [Piano.isKeyActive, Bool.or_eq_true]
      right
      rw [Bool.and_eq_true]
      constructor
      · have hmm : note ∈ Piano.keyboardMappingList.map Prod.snd :=
          hsnd ▸ List.mem_map_of_mem Prod.snd hp
        simpa using hmm
      · have hfind := mapping_find_first p hp
        rw [hsnd] at hfind
        rw [hfind]
        exact hpressed
    · intro hact
      rw [Piano.isKeyActive, Bool.or_eq_true] at hact
      rcases hact with hmem | hsecond
      · right
        have hinv : ActiveHasTimer (Piano.pianoRun Piano.initPiano es).1 :=
          activeHasTimer_run es _ activeHasTimer_initPiano
        have hx : note ∈ (Piano.observePiano es t).activeKeys := by simpa using hmem
        obtain ⟨e, he, hte⟩ := fireDue_active_window _ t note hinv hx
        rw [Piano.windowOpenFor, List.any_eq_true]
        exact ⟨(note, e), he, by simp [hte]⟩
      · left
        rw [Bool.and_eq_true] at hsecond
        obtain ⟨hvals, hpressed⟩ := hsecond
        have hmm : note ∈ Piano.keyboardMappingList.map Prod.snd := by simpa using hvals
        obtain ⟨p, hp, hsnd⟩ := List.mem_map.1 hmm
        have hfind := mapping_find_first p hp
        rw [hsnd] at hfind
        rw [hfind] at hpressed
        rw [Piano.keyHeldFor, List.any_eq_true]
        refine ⟨p, hp, ?_⟩
        rw [Bool.and_eq_true, beq_iff_eq]
        exact ⟨hsnd, hpressed⟩
  · intro es t pad
    constructor
    · intro hheld
      rw [Drums.padKeyHeldFor, List.any_eq_true] at hheld
      obtain ⟨d, hd, hcond⟩ := hheld
      rw [Bool.and_eq_true, beq_iff_eq] at hcond
      obtain ⟨hname, hpressed⟩ := hcond
      rw [Drums.isPadActive, Bool.or_eq_true]
      right
      have hfind := drum_find_by_name d hd
      rw [hname] at hfind
      rw [hfind]
      exact hpressed
    · intro hact
      rw [Drums.isPadActive, Bool.or_eq_true] at hact
      rcases hact with hmem | hsecond
      · right
        have hinv : ActivePadHasTimer (Drums.drumRun Drums.initDrums es).1 :=
          activePadHasTimer_run es _ activePadHasTimer_initDrums
        have hx : pad ∈ (Drums.observeDrums es t).activePads := by simpa using hmem
        obtain ⟨e, he, hte⟩ := fireDueDrums_active_window _ t pad hinv hx
        rw [Drums.padWindowOpenFor, List.any_eq_true]
        exact ⟨(pad, e), he, by simp [hte]⟩
      · left
        cases hfind2 : Drums.drumSounds.find? (fun d => d.name == pad) with
        | none =>
            rw [hfind2] at hsecond
            simp at hsecond
        | some drum =>
            rw [hfind2] at hsecond
            have hpressed : (Drums.observeDrums es t).pressedKeys.contains drum.key = true :=
              hsecond
            have hdm : drum ∈ Drums.drumSounds := List.mem_of_find?_eq_some hfind2
            have hname := List.find?_some hfind2
            rw [Drums.padKeyHeldFor, List.any_eq_true]
            refine ⟨drum, hdm, ?_⟩
            rw [Bool.and_eq_true]
            exact ⟨hname, hpressed⟩

/-- Concrete instance of `visual_active_characterization`: while `a` is
held (pressed at 5 ms, observed at 10 ms) the C4 key is shown active. -/
theorem visual_active_characterization_witness :
    Piano.isKeyActive (Piano.observePiano [(Piano.PianoEvent.keyDown "a", 5)] 10) "C4" = true :=
  (visual_active_characterization.1 [(Piano.PianoEvent.keyDown "a", 5)] 10 "C4").1 (by decide)

/-- Concrete instance of `recording_timestamps_monotone`. -/
theorem recording_timestamps_monotone_witness :
    ((handleStopRecording (runNotePlays [("C4", 105), ("Kick-C2", 111)]
        (handleStartRecording 100
          { activeInstrument := Instrument.piano, isRecording := false,
            recordedNotes := [], recordingStartTime := 0 }))).recordedNotes.map
      NoteEvent.timestamp).Sorted (· ≤ ·) :=
  recording_timestamps_monotone _ 100 [("C4", 105), ("Kick-C2", 111)] (by decide)

end SoundSpaceStudio
